import Mathlib

/-!
Verification of the MOV/MP4 metadata extraction engine of the `nom-exif`
repository (files `src/mov.rs` and `src/video.rs`).

The byte-level box grammar lives in modules (`bbox`, `error`, `loader`,
`values`) whose sources are not part of the provided tree; those parts are
modelled from the specification (section 4.3 of the spec: 4-byte big-endian
size, 4-byte type tag, size 0 = extends to end, size 1 = 64-bit extended
size, `find_box` by slash-separated path, streaming "need more bytes"
signalling as in nom). Everything in `mov.rs` and `video.rs` is translated
directly from the source.

Bytes are `Nat` values below 256; byte sequences are `List Nat`. Recursive
traversals use an explicit fuel argument (each traversal step consumes at
least 8 bytes, so a fuel of `input.length + 1` can never run out); the
public wrappers instantiate that fuel, keeping every definition executable
by kernel reduction.
-/

namespace NomExif

/-- Modelled from the spec: the error side of nom's `IResult`. `Incomplete n`
is nom's `Err::Incomplete(Needed::Size(n))` produced by streaming parsers,
`IncompleteUnknown` is `Needed::Unknown`, and `Failure` collapses nom's
`Error`/`Failure` variants (their payload is irrelevant to `mov.rs`, which
only pattern-matches on the variant). -/
inductive NomErr where
  | Incomplete : Nat → NomErr
  | IncompleteUnknown : NomErr
  | Failure : NomErr
deriving DecidableEq

/-- Modelled from the spec: the recoverable/unrecoverable error type of the
missing `error` module, as used by `mov.rs`: `Need n` ("need n more bytes"),
`ClearAndSkip n` ("discard the buffer and skip n further bytes"), and
`Failed msg` (malformed structure). -/
inductive ParsingError where
  | Need : Nat → ParsingError
  | ClearAndSkip : Nat → ParsingError
  | Failed : String → ParsingError
deriving DecidableEq

/-- Modelled from the spec: nom's `streaming::take(n)`: returns the first
`n` bytes and the rest, or `Incomplete (n - available)` when fewer than `n`
bytes are buffered. -/
def streamingTake (n : Nat) (l : List Nat) : Except NomErr (List Nat × List Nat) :=
  if n ≤ l.length then .ok (l.drop n, l.take n) else .error (.Incomplete (n - l.length))

/-- Big-endian interpretation of a byte list (used for the 4- and 8-byte
size fields of a box header). -/
def beBytes (l : List Nat) : Nat :=
  l.foldl (fun acc b => acc * 256 + b % 256) 0

/-- Bytes interpreted as characters, one char per byte (the Rust code maps
`*b as char`, i.e. each byte to the Unicode scalar of the same value). -/
def bytesToString (l : List Nat) : String :=
  String.mk (l.map (fun b => Char.ofNat (b % 256)))

/-- Encode an ASCII/Latin-1 string as bytes (inverse of `bytesToString` on
characters below 256); used to build concrete test inputs. -/
def strBytes (s : String) : List Nat :=
  s.toList.map (fun c => c.toNat % 256)

/-- Big-endian 4-byte encoding of a natural number below 2^32. -/
def u32be (n : Nat) : List Nat :=
  [n / 2 ^ 24 % 256, n / 2 ^ 16 % 256, n / 2 ^ 8 % 256, n % 256]

/-- Build a box: 4-byte big-endian total size, 4-byte type tag, body. -/
def mkBox (tag : String) (body : List Nat) : List Nat :=
  u32be (8 + body.length) ++ strBytes tag ++ body

/-- Modelled from the spec: a parsed ISOBMFF box header: type tag, declared
total size and header size (8 bytes, or 16 with the 64-bit extended size). -/
structure BoxHeader where
  box_type : String
  box_size : Nat
  header_size : Nat
deriving DecidableEq

/-- Body size of a box: declared total size minus header size. -/
def bodySize (h : BoxHeader) : Nat := h.box_size - h.header_size

/-- Modelled from the spec: parse one box header (4-byte big-endian size,
4-byte type tag; size 0 extends to the end of the input, size 1 means a
64-bit extended size follows; a declared size smaller than the header is a
malformed-structure failure). Returns the bytes after the header. -/
def parseBoxHeader (input : List Nat) : Except NomErr (List Nat × BoxHeader) :=
  match streamingTake 4 input with
  | .error e => .error e
  | .ok (r1, sizeB) =>
    match streamingTake 4 r1 with
    | .error e => .error e
    | .ok (r2, typeB) =>
      if beBytes sizeB = 0 then
        .ok (r2, { box_type := bytesToString typeB, box_size := input.length, header_size := 8 })
      else if beBytes sizeB = 1 then
        match streamingTake 8 r2 with
        | .error e => .error e
        | .ok (r3, extB) =>
          if beBytes extB < 16 then .error .Failure
          else .ok (r3, { box_type := bytesToString typeB, box_size := beBytes extB,
                          header_size := 16 })
      else if beBytes sizeB < 8 then .error .Failure
      else .ok (r2, { box_type := bytesToString typeB, box_size := beBytes sizeB,
                      header_size := 8 })

/-- Modelled from the spec: a whole box as held by `find_box`: its header
together with all of its bytes (header included), mirroring `BoxHolder`. -/
structure BoxHolder where
  header : BoxHeader
  data : List Nat
deriving DecidableEq

/-- Body bytes of a held box: its data minus the header bytes. -/
def BoxHolder.body_data (b : BoxHolder) : List Nat :=
  b.data.drop b.header.header_size

/-- Modelled from the spec: parse one complete box (header plus body) from
the input, returning the remaining bytes and the box. -/
def boxParse (input : List Nat) : Except NomErr (List Nat × BoxHolder) :=
  match parseBoxHeader input with
  | .error e => .error e
  | .ok (_, h) =>
    match streamingTake h.box_size input with
    | .error e => .error e
    | .ok (rest, data) => .ok (rest, { header := h, data := data })

theorem streamingTake_ok {n : Nat} {l rest taken : List Nat}
    (h : streamingTake n l = .ok (rest, taken)) :
    rest = l.drop n ∧ taken = l.take n ∧ n ≤ l.length := by
  unfold streamingTake at h
  split at h
  · injection h with h2
    injection h2 with h3 h4
    exact ⟨h3.symm, h4.symm, by assumption⟩
  · exact absurd h (by simp)

theorem parseBoxHeader_ok {input remain : List Nat} {h : BoxHeader}
    (hp : parseBoxHeader input = .ok (remain, h)) :
    remain.length + h.header_size = input.length ∧ 8 ≤ h.header_size ∧ 8 ≤ h.box_size := by
  unfold parseBoxHeader at hp
  split at hp
  · exact absurd hp (by simp)
  rename_i r1 sizeB heq1
  split at hp
  · exact absurd hp (by simp)
  rename_i r2 typeB heq2
  obtain ⟨hr1, -, hl1⟩ := streamingTake_ok heq1
  obtain ⟨hr2, -, hl2⟩ := streamingTake_ok heq2
  have hr2len : r2.length + 8 = input.length := by
    subst hr2 hr1
    simp only [List.length_drop] at hl2 ⊢
    omega
  split at hp
  · injection hp with hp2
    injection hp2 with hp3 hp4
    subst hp3; subst hp4
    exact ⟨hr2len, by simp, by simp; omega⟩
  split at hp
  · split at hp
    · exact absurd hp (by simp)
    rename_i r3 extB heq3
    obtain ⟨hr3, -, hl3⟩ := streamingTake_ok heq3
    split at hp
    · exact absurd hp (by simp)
    · injection hp with hp2
      injection hp2 with hp3 hp4
      subst hp3; subst hp4
      refine ⟨?_, by simp, by simp; omega⟩
      subst hr3
      simp [List.length_drop]
      omega
  split at hp
  · exact absurd hp (by simp)
  · injection hp with hp2
    injection hp2 with hp3 hp4
    subst hp3; subst hp4
    exact ⟨hr2len, by simp, by simp; omega⟩

theorem boxParse_ok {input rest : List Nat} {b : BoxHolder}
    (hp : boxParse input = .ok (rest, b)) :
    rest.length < input.length ∧ rest = input.drop b.header.box_size := by
  unfold boxParse at hp
  split at hp
  · exact absurd hp (by simp)
  rename_i r1 hd heq1
  split at hp
  · exact absurd hp (by simp)
  rename_i r2 data heq2
  injection hp with hp2
  injection hp2 with hp3 hp4
  obtain ⟨hlen, hhs, hbs⟩ := parseBoxHeader_ok heq1
  obtain ⟨hr2, -, hle⟩ := streamingTake_ok heq2
  subst hp3; subst hp4
  subst hr2
  refine ⟨?_, rfl⟩
  simp only [List.length_drop]
  omega

/-- Modelled from the spec: fueled worker for `travel_header` of the missing
`bbox` module: repeatedly parse one box header and hand the header plus the
bytes after it to the visitor; when the visitor answers `false` traversal
stops and returns those bytes and the header, otherwise the box body is
consumed (with nom streaming semantics) and traversal continues. The mutable
state the Rust closures capture is threaded explicitly as `s`. -/
def travel_headerF {σ : Type} : Nat → (BoxHeader → List Nat → σ → Bool × σ) → List Nat → σ →
    Except NomErr (List Nat × BoxHeader × σ)
  | 0, _, _, _ => .error .Failure
  | fuel + 1, pred, input, s =>
    match parseBoxHeader input with
    | .error e => .error e
    | .ok (remain, h) =>
      match pred h remain s with
      | (false, s2) => .ok (remain, h, s2)
      | (true, s2) =>
        match streamingTake (bodySize h) remain with
        | .error e => .error e
        | .ok (rest, _) => travel_headerF fuel pred rest s2

/-- Modelled from the spec: `travel_header`, the traversal primitive of the
missing `bbox` module. One traversal step always consumes at least the
8-byte header, so a fuel of `input.length + 1` never runs out. -/
def travel_header {σ : Type} (pred : BoxHeader → List Nat → σ → Bool × σ)
    (input : List Nat) (s : σ) : Except NomErr (List Nat × BoxHeader × σ) :=
  travel_headerF (input.length + 1) pred input s

/-- The error conversion closure of `extract_moov_body_from_buf`
(`src/mov.rs` lines 227-233): nom `Incomplete` becomes `Need` (with 1 for an
unknown need), nom `Error`/`Failure` becomes `Failed msg`. -/
def convert_error (e : NomErr) (msg : String) : ParsingError :=
  match e with
  | .Incomplete n => .Need n
  | .IncompleteUnknown => .Need 1
  | .Failure => .Failed msg

/-- The visitor closure passed to `travel_header` by
`extract_moov_body_from_buf` (`src/mov.rs` lines 237-251), with the mutated
variables `(to_skip, skipped)` threaded as explicit state: stop at `moov`
(counting its header as skipped), stop with a pending skip when a non-moov
box's body exceeds the remaining bytes, otherwise skip the whole box. -/
def extractPred (h : BoxHeader) (remain : List Nat) (s : Nat × Nat) : Bool × (Nat × Nat) :=
  if h.box_type = "moov" then (false, (s.1, s.2 + h.header_size))
  else if remain.length < bodySize h then (false, (bodySize h - remain.length, s.2))
  else (true, (s.1, s.2 + h.box_size))

/-- Translation of `extract_moov_body_from_buf` (`src/mov.rs` lines
223-262): travel the top-level boxes until `moov`; report `ClearAndSkip`
when a non-moov box extends past the buffer, `Need` when the buffer ends
inside a header or inside the moov body, and otherwise the range of the
moov body within the buffer. -/
def extract_moov_body_from_buf (input : List Nat) : Except ParsingError (Nat × Nat) :=
  match travel_header extractPred input (0, 0) with
  | .error e => .error (convert_error e "search atom moov failed")
  | .ok (remain, header, st) =>
    if 0 < st.1 then .error (.ClearAndSkip st.1)
    else
      match streamingTake (bodySize header) remain with
      | .error e => .error (convert_error e "moov is too small")
      | .ok (_, body) => .ok (st.2, st.2 + body.length)

/-- Modelled from the spec: fueled worker scanning a run of sibling boxes
for the first one with the given type tag: parse one box; if its tag
matches, return it, otherwise continue after it; clean exhaustion of the
input means "not found" (`Ok none`), while a truncated box surfaces the
nom streaming error. -/
def findSiblingF : Nat → String → List Nat → Except NomErr (List Nat × Option BoxHolder)
  | 0, _, _ => .error .Failure
  | fuel + 1, tag, input =>
    if input.isEmpty then .ok (input, none)
    else
      match boxParse input with
      | .error e => .error e
      | .ok (rest, b) =>
        if b.header.box_type = tag then .ok (rest, some b)
        else findSiblingF fuel tag rest

/-- Modelled from the spec: scan sibling boxes for a type tag. Every step
consumes at least 8 bytes, so fuel `input.length + 1` never runs out. -/
def findSibling (tag : String) (input : List Nat) :
    Except NomErr (List Nat × Option BoxHolder) :=
  findSiblingF (input.length + 1) tag input

/-- Split a path on the slash character (the Rust side splits the
`find_box` path string with `split('/')`). -/
def splitPath : List Char → List Char → List String
  | [], acc => [String.mk acc.reverse]
  | c :: rest, acc =>
    if c = '/' then String.mk acc.reverse :: splitPath rest [] else splitPath rest (c :: acc)

/-- Modelled from the spec: descend along a slash-separated path of box type
tags: find the first component among the sibling boxes of the current level,
then recurse into its body with the remaining components; a missing
component yields `Ok none`. The returned remainder is the input after the
outermost matched box. -/
def findPath : List String → List Nat → Except NomErr (List Nat × Option BoxHolder)
  | [], input => .ok (input, none)
  | [tag], input => findSibling tag input
  | tag :: rest, input =>
    match findSibling tag input with
    | .error e => .error e
    | .ok (r, none) => .ok (r, none)
    | .ok (r, some b) =>
      match findPath rest b.body_data with
      | .error e => .error e
      | .ok (_, res) => .ok (r, res)

/-- Modelled from the spec: `find_box` of the missing `bbox` module — find
the first box matching a slash-separated path of type tags, recursing into
the matched boxes' bodies. -/
def find_box (input : List Nat) (path : String) : Except NomErr (List Nat × Option BoxHolder) :=
  findPath (splitPath path.toList []) input

theorem findSiblingF_ok_of_none (fuel : Nat) :
    ∀ (t : String) (input r : List Nat),
      findSiblingF fuel t input = .ok (r, none) →
      ∀ t2 : String, ∃ out, findSiblingF fuel t2 input = .ok out := by
  induction fuel with
  | zero =>
    intro t input r h t2
    simp [findSiblingF] at h
  | succ n ih =>
    intro t input r h t2
    rw [findSiblingF] at h
    by_cases he : input.isEmpty
    · rw [if_pos he] at h
      exact ⟨(input, none), by rw [findSiblingF, if_pos he]⟩
    · rw [if_neg he] at h
      cases hbp : boxParse input with
      | error e =>
        rw [hbp] at h
        exact absurd h (by simp)
      | ok val =>
        obtain ⟨rest, b⟩ := val
        rw [hbp] at h
        simp only at h
        by_cases ht : b.header.box_type = t
        · rw [if_pos ht] at h
          exact absurd h (by simp)
        · rw [if_neg ht] at h
          by_cases ht2 : b.header.box_type = t2
          · refine ⟨(rest, some b), ?_⟩
            rw [findSiblingF, if_neg he, hbp]
            simp only [if_pos ht2]
          · obtain ⟨out, ho⟩ := ih t rest r h t2
            refine ⟨out, ?_⟩
            rw [findSiblingF, if_neg he, hbp]
            simp only [if_neg ht2]
            exact ho

/-- Modelled from the spec: the structured timestamp-with-offset type
(chrono's `DateTime<FixedOffset>` as used by `EntryValue::Time`): calendar
date, time of day, and a timezone offset (`tzNeg` is true for a negative
offset). -/
structure Timestamp where
  year : Nat
  month : Nat
  day : Nat
  hour : Nat
  minute : Nat
  second : Nat
  tzNeg : Bool
  tzHour : Nat
  tzMin : Nat
deriving DecidableEq

/-- Modelled from the spec: the tagged metadata value union of the missing
`values` module (`EntryValue`): text, structured timestamp, unsigned
8/32/64-bit integers, signed 64-bit integer, raw bytes. -/
inductive EntryValue where
  | Text : String → EntryValue
  | Time : Timestamp → EntryValue
  | U8 : Nat → EntryValue
  | U32 : Nat → EntryValue
  | U64 : Nat → EntryValue
  | I64 : Int → EntryValue
  | Binary : List Nat → EntryValue
deriving DecidableEq

/-- Decimal digit value of a character, or `none`. -/
def digitVal (c : Char) : Option Nat :=
  if c.isDigit then some (c.toNat - 48) else none

/-- Parse exactly two decimal digits. -/
def parse2d : List Char → Option (Nat × List Char)
  | a :: b :: rest =>
    match digitVal a, digitVal b with
    | some x, some y => some (10 * x + y, rest)
    | _, _ => none
  | _ => none

/-- Parse exactly four decimal digits. -/
def parse4d (cs : List Char) : Option (Nat × List Char) :=
  match parse2d cs with
  | none => none
  | some (hi, cs1) =>
    match parse2d cs1 with
    | none => none
    | some (lo, cs2) => some (100 * hi + lo, cs2)

/-- Consume one expected character. -/
def expectChar (c : Char) : List Char → Option (List Char)
  | x :: rest => if x = c then some rest else none
  | [] => none

/-- Parse a `YYYY-MM-DD` calendar date, returning year, month, day and the
remaining characters. -/
def parseYmd (cs : List Char) : Option (Nat × Nat × Nat × List Char) :=
  match parse4d cs with
  | none => none
  | some (y, c1) =>
    match expectChar '-' c1 with
    | none => none
    | some c2 =>
      match parse2d c2 with
      | none => none
      | some (mo, c3) =>
        match expectChar '-' c3 with
        | none => none
        | some c4 =>
          match parse2d c4 with
          | none => none
          | some (d, c5) => some (y, mo, d, c5)

/-- Parse an `HH:MM:SS` time of day, returning hour, minute, second and the
remaining characters. -/
def parseHms (cs : List Char) : Option (Nat × Nat × Nat × List Char) :=
  match parse2d cs with
  | none => none
  | some (h, c1) =>
    match expectChar ':' c1 with
    | none => none
    | some c2 =>
      match parse2d c2 with
      | none => none
      | some (mi, c3) =>
        match expectChar ':' c3 with
        | none => none
        | some c4 =>
          match parse2d c4 with
          | none => none
          | some (se, c5) => some (h, mi, se, c5)

/-- Parse the timezone suffix: `Z` (UTC), or a `±HH:MM` offset ending the
string; the Bool marks a negative offset. -/
def parseZone : List Char → Option (Bool × Nat × Nat)
  | [] => none
  | c :: rest =>
    if c = 'Z' ∧ rest = [] then some (false, 0, 0)
    else if c = '+' ∨ c = '-' then
      match parse2d rest with
      | none => none
      | some (th, rest1) =>
        match expectChar ':' rest1 with
        | none => none
        | some rest2 =>
          match parse2d rest2 with
          | none => none
          | some (tm, rest3) =>
            if rest3.isEmpty then some (c == '-', th, tm) else none
    else none

/-- Modelled from the spec: chrono's `DateTime::parse_from_str(s, "%+")`,
the strict ISO-8601 combined date-time parse used to normalize the
creation-date text: `YYYY-MM-DDTHH:MM:SS` followed by `Z` or a `±HH:MM`
offset, with basic range validation; anything else fails. -/
def parse_from_str (s : String) : Option Timestamp :=
  match parseYmd s.toList with
  | none => none
  | some (y, mo, d, c1) =>
    match expectChar 'T' c1 with
    | none => none
    | some c2 =>
      match parseHms c2 with
      | none => none
      | some (h, mi, se, c3) =>
        match parseZone c3 with
        | none => none
        | some z =>
          if 1 ≤ mo ∧ mo ≤ 12 ∧ 1 ≤ d ∧ d ≤ 31 ∧ h ≤ 23 ∧ mi ≤ 59 ∧ se ≤ 60 ∧
              z.2.1 ≤ 23 ∧ z.2.2 ≤ 59 then
            some ⟨y, mo, d, h, mi, se, z.1, z.2.1, z.2.2⟩
          else none

/-- One entry of the metadata `keys` box: a 4-byte namespace and a key
string. -/
structure KeyEntry where
  ns : String
  key : String
deriving DecidableEq

/-- Modelled from the spec: the parsed `keys` box — the list of namespaced
key identifiers, in order. -/
structure KeysBox where
  entries : List KeyEntry
deriving DecidableEq

/-- Modelled from the spec: fueled worker parsing the entry run of a `keys`
box: each entry is a 4-byte big-endian size, a 4-byte namespace, and
`size - 8` bytes of key text; entries are read until the bytes run out
exactly (anything left over that does not form an entry is an error). -/
def parseKeyEntriesF : Nat → List Nat → Except NomErr (List KeyEntry)
  | _, [] => .ok []
  | 0, _ => .error .Failure
  | fuel + 1, l =>
    match streamingTake 4 l with
    | .error e => .error e
    | .ok (r1, sizeB) =>
      if beBytes sizeB < 8 then .error .Failure
      else
        match streamingTake 4 r1 with
        | .error e => .error e
        | .ok (r2, nsB) =>
          match streamingTake (beBytes sizeB - 8) r2 with
          | .error e => .error e
          | .ok (r3, keyB) =>
            match parseKeyEntriesF fuel r3 with
            | .error e => .error e
            | .ok rest => .ok ({ ns := bytesToString nsB, key := bytesToString keyB } :: rest)

/-- Modelled from the spec: `KeysBox::parse_box` — skip the 8-byte box
header, then parse the entry run (each step consumes at least 8 bytes, so
the fuel never runs out). -/
def KeysBox.parse_box (data : List Nat) : Except NomErr (List Nat × KeysBox) :=
  match streamingTake 8 data with
  | .error e => .error e
  | .ok (body, _) =>
    match parseKeyEntriesF (body.length + 1) body with
    | .error e => .error e
    | .ok entries => .ok ([], { entries := entries })

/-- One item of the metadata `ilst` box: its decoded typed value. -/
structure IlstItem where
  value : EntryValue
deriving DecidableEq

/-- Modelled from the spec: the parsed `ilst` box — the list of typed
values, in the same ordinal order as the `keys` entries. -/
structure IlstBox where
  items : List IlstItem
deriving DecidableEq

/-- Modelled from the spec: fueled worker parsing the item run of an `ilst`
box: each item is a 4-byte big-endian size, a 4-byte wire-type tag and
`size - 8` payload bytes; wire type 1 is UTF-8/ASCII text, any other type
is kept as raw bytes. -/
def parseIlstItemsF : Nat → List Nat → Except NomErr (List IlstItem)
  | _, [] => .ok []
  | 0, _ => .error .Failure
  | fuel + 1, l =>
    match streamingTake 4 l with
    | .error e => .error e
    | .ok (r1, sizeB) =>
      if beBytes sizeB < 8 then .error .Failure
      else
        match streamingTake 4 r1 with
        | .error e => .error e
        | .ok (r2, typeB) =>
          match streamingTake (beBytes sizeB - 8) r2 with
          | .error e => .error e
          | .ok (r3, payload) =>
            match parseIlstItemsF fuel r3 with
            | .error e => .error e
            | .ok rest =>
              .ok ({ value := if beBytes typeB = 1 then .Text (bytesToString payload)
                              else .Binary payload } :: rest)

/-- Modelled from the spec: `IlstBox::parse_box` — skip the 8-byte box
header, then parse the item run. -/
def IlstBox.parse_box (data : List Nat) : Except NomErr (List Nat × IlstBox) :=
  match streamingTake 8 data with
  | .error e => .error e
  | .ok (body, _) =>
    match parseIlstItemsF (body.length + 1) body with
    | .error e => .error e
    | .ok items => .ok ([], { items := items })

/-- Modelled from the spec: the parsed movie header box: raw creation time
(seconds since the 1904-01-01 epoch), timescale, and duration in timescale
units. -/
structure MvhdBox where
  creation_time_raw : Nat
  timescale : Nat
  duration : Nat
deriving DecidableEq

/-- Modelled from the spec: `MvhdBox::parse_box` — skip the 8-byte box
header, then read version/flags (4 bytes), creation time, modification
time, timescale and duration (4 big-endian bytes each). -/
def MvhdBox.parse_box (data : List Nat) : Except NomErr (List Nat × MvhdBox) :=
  match streamingTake 8 data with
  | .error e => .error e
  | .ok (b0, _) =>
    match streamingTake 4 b0 with
    | .error e => .error e
    | .ok (b1, _) =>
      match streamingTake 4 b1 with
      | .error e => .error e
      | .ok (b2, creationB) =>
        match streamingTake 4 b2 with
        | .error e => .error e
        | .ok (b3, _) =>
          match streamingTake 4 b3 with
          | .error e => .error e
          | .ok (b4, tsB) =>
            match streamingTake 4 b4 with
            | .error e => .error e
            | .ok (b5, durB) =>
              .ok (b5, { creation_time_raw := beBytes creationB,
                         timescale := beBytes tsB, duration := beBytes durB })

/-- Duration in milliseconds: duration scaled by the timescale, truncated
to an unsigned 32-bit value. -/
def MvhdBox.duration_ms (m : MvhdBox) : Nat :=
  m.duration * 1000 / m.timescale % 2 ^ 32

/-- Civil date from a count of days since 1970-01-01 (standard loop-free
era-based conversion). -/
def civilFromDays (z0 : Int) : Nat × Nat × Nat :=
  let z := z0 + 719468
  let era : Int := (if 0 ≤ z then z else z - 146096) / 146097
  let doe : Nat := (z - era * 146097).toNat
  let yoe : Nat := (doe - doe / 1460 + doe / 36524 - doe / 146096) / 365
  let y : Int := (yoe : Int) + era * 400
  let doy : Nat := doe - (365 * yoe + yoe / 4 - yoe / 100)
  let mp : Nat := (5 * doy + 2) / 153
  let d : Nat := doy - (153 * mp + 2) / 5 + 1
  let m : Nat := if mp < 10 then mp + 3 else mp - 9
  (if m ≤ 2 then (y + 1).toNat else y.toNat, m, d)

/-- Modelled from the spec: `MvhdBox::creation_time` — the raw creation
time converted from the format's 1904-01-01 epoch to a standard UTC
timestamp (2082844800 is the offset between the 1904 and 1970 epochs). -/
def MvhdBox.creation_time (m : MvhdBox) : Timestamp :=
  let unix : Int := (m.creation_time_raw : Int) - 2082844800
  let days : Int := Int.fdiv unix 86400
  let secs : Nat := (Int.emod unix 86400).toNat
  let ymd := civilFromDays days
  { year := ymd.1, month := ymd.2.1, day := ymd.2.2,
    hour := secs / 3600, minute := secs % 3600 / 60, second := secs % 60,
    tzNeg := false, tzHour := 0, tzMin := 0 }

/-- Modelled from the spec: the parsed track header fields the driver uses:
pixel width and height. -/
structure TkhdBox where
  width : Nat
  height : Nat
deriving DecidableEq

/-- Modelled from the spec: `TkhdBox::parse_box` — skip the 8-byte box
header, then read version/flags (4 bytes) and the pixel width and height
(4 big-endian bytes each). -/
def TkhdBox.parse_box (data : List Nat) : Except NomErr (List Nat × TkhdBox) :=
  match streamingTake 8 data with
  | .error e => .error e
  | .ok (b0, _) =>
    match streamingTake 4 b0 with
    | .error e => .error e
    | .ok (b1, _) =>
      match streamingTake 4 b1 with
      | .error e => .error e
      | .ok (b2, wB) =>
        match streamingTake 4 b2 with
        | .error e => .error e
        | .ok (b3, hB) => .ok (b3, { width := beBytes wB, height := beBytes hB })

/-- Modelled from the spec: `parse_video_tkhd_in_moov` — locate the video
track's `tkhd` box inside the moov body and parse its width and height;
a missing box yields `Ok none`. -/
def parse_video_tkhd_in_moov (moov_body : List Nat) : Except NomErr (Option TkhdBox) :=
  match find_box moov_body "trak/tkhd" with
  | .error e => .error e
  | .ok (_, none) => .ok none
  | .ok (_, some b) =>
    match TkhdBox.parse_box b.data with
    | .error e => .error e
    | .ok (_, t) => .ok (some t)

/-- The location key constant of `parse_metadata` (`src/mov.rs` line 69). -/
def LOCATION_KEY : String := "com.apple.quicktime.location.ISO6709"

/-- The creation-date key constant of `parse_metadata` (`src/mov.rs` line
88). -/
def CREATIONDATE_KEY : String := "com.apple.quicktime.creationdate"

/-- Translation of `parse_moov_body` (`src/mov.rs` lines 266-290): locate
`meta`, then `keys` and `ilst` inside its body; a missing box returns
`Ok` with `none`; otherwise parse both boxes and zip the keys with the
values positionally. -/
def parse_moov_body (input : List Nat) :
    Except NomErr (List Nat × Option (List (String × EntryValue))) :=
  match find_box input "meta" with
  | .error e => .error e
  | .ok (_, none) => .ok (input, none)
  | .ok (remain, some meta) =>
    match find_box meta.body_data "keys" with
    | .error e => .error e
    | .ok (_, none) => .ok (remain, none)
    | .ok (_, some keys) =>
      match find_box meta.body_data "ilst" with
      | .error e => .error e
      | .ok (_, none) => .ok (remain, none)
      | .ok (_, some ilst) =>
        match KeysBox.parse_box keys.data with
        | .error e => .error e
        | .ok (_, kb) =>
          match IlstBox.parse_box ilst.data with
          | .error e => .error e
          | .ok (_, ib) =>
            .ok (input,
              some (List.zip (kb.entries.map (fun k => k.key))
                             (ib.items.map (fun v => v.value))))

/-- The `udta/©xyz` location fallback of `parse_metadata` (`src/mov.rs`
lines 66-86): when no entry with the location key exists, look for
`udta/©xyz` (errors treated as "not found"); when found with a body longer
than 4 bytes, append the body after the 4-byte language prefix as text
(a body of 4 bytes or fewer is merely logged). -/
def udtaFallback (moov_body : List Nat) (entries : List (String × EntryValue)) :
    List (String × EntryValue) :=
  if entries.any (fun x => x.1 == LOCATION_KEY) then entries
  else
    match (match find_box moov_body "udta/©xyz" with
           | .ok (_, b) => b
           | .error _ => none) with
    | none => entries
    | some bbox =>
      if bbox.body_data.length ≤ 4 then entries
      else entries ++ [(LOCATION_KEY, .Text (bytesToString (bbox.body_data.drop 4)))]

/-- The creation-date normalization of `parse_metadata` (`src/mov.rs` lines
88-98): if an entry with the creation-date key exists, its value is text,
and the text parses as strict ISO-8601, replace that entry in place by the
structured time; otherwise leave the entries untouched. -/
def normalizeCreationdate (entries : List (String × EntryValue)) :
    List (String × EntryValue) :=
  match entries.findIdx? (fun x => x.1 == CREATIONDATE_KEY) with
  | none => entries
  | some pos =>
    match entries.get? pos with
    | some (_, .Text s) =>
      match parse_from_str s with
      | some t => entries.set pos (CREATIONDATE_KEY, .Time t)
      | none => entries
    | _ => entries

/-- The `mvhd` pass of `parse_metadata` (`src/mov.rs` lines 100-112): a
failing `find_box` propagates (the `?` operator); when the box is found and
parses, append the duration and, only when no creation-date entry exists,
the movie header's creation time. -/
def mvhdPass (moov_body : List Nat) (entries : List (String × EntryValue)) :
    Except NomErr (List (String × EntryValue)) :=
  match find_box moov_body "mvhd" with
  | .error e => .error e
  | .ok (_, none) => .ok entries
  | .ok (_, some bbox) =>
    match MvhdBox.parse_box bbox.data with
    | .error _ => .ok entries
    | .ok (_, mvhd) =>
      let es := entries ++ [("duration", .U32 mvhd.duration_ms)]
      if es.any (fun x => x.1 == CREATIONDATE_KEY) then .ok es
      else .ok (es ++ [(CREATIONDATE_KEY, .Time mvhd.creation_time)])

/-- The `tkhd` pass of `parse_metadata` (`src/mov.rs` lines 114-117):
append width and height when the video track header is found and parses;
everything else leaves the entries unchanged. -/
def tkhdPass (moov_body : List Nat) (entries : List (String × EntryValue)) :
    List (String × EntryValue) :=
  match parse_video_tkhd_in_moov moov_body with
  | .ok (some tkhd) => entries ++ [("width", .U32 tkhd.width), ("height", .U32 tkhd.height)]
  | _ => entries

/-- Render a `NomErr` as the message `parse_metadata` would surface via the
`?` conversion. -/
def nomErrMsg : NomErr → String
  | .Incomplete _ => "need more bytes"
  | .IncompleteUnknown => "need more bytes"
  | .Failure => "parse failed"

/-- The body of `parse_metadata` after the moov body has been extracted
(`src/mov.rs` lines 58-119): keys/ilst entries (a failing
`parse_moov_body` becomes the "invalid moov body" error), the `udta/©xyz`
location fallback, creation-date normalization, the `mvhd` pass (whose
`find_box` failure propagates) and the `tkhd` pass. -/
def parse_metadata_body (moov_body : List Nat) :
    Except String (List (String × EntryValue)) :=
  match parse_moov_body moov_body with
  | .error _ => .error "invalid moov body"
  | .ok (_, oentries) =>
    let entries0 := oentries.getD []
    let entries1 := udtaFallback moov_body entries0
    let entries2 := normalizeCreationdate entries1
    match mvhdPass moov_body entries2 with
    | .error e => .error (nomErrMsg e)
    | .ok entries3 => .ok (tkhdPass moov_body entries3)

/-- Render a `ParsingError` as a message, for the driver-level error. -/
def parsingErrMsg : ParsingError → String
  | .Need _ => "need more bytes"
  | .ClearAndSkip _ => "clear and skip"
  | .Failed m => m

/-- Translation of `parse_metadata` (`src/mov.rs` lines 55-120) for a fully
buffered reader: extract the moov body range from the bytes (with the whole
file available, the incremental loader of the missing `loader` module
reduces to a single call of `extract_moov_body_from_buf`), then run the
metadata passes on that body. -/
def parse_metadata (input : List Nat) : Except String (List (String × EntryValue)) :=
  match extract_moov_body_from_buf input with
  | .error e => .error (parsingErrMsg e)
  | .ok range => parse_metadata_body ((input.drop range.1).take (range.2 - range.1))

/-- Modelled from the spec: the GPS info record of the Exif module (only
its presence matters to `VideoInfo`). -/
structure GPSInfo where
  latitude_ref : Char
  longitude_ref : Char
deriving DecidableEq

/-- The video info tag enumeration (`src/video.rs` lines 10-18). -/
inductive VideoInfoTag where
  | Make
  | Model
  | CreateDate
  | ImageWidth
  | ImageHeight
  | Duration
deriving DecidableEq

/-- The `VideoInfo` record (`src/video.rs` lines 20-24); the entries hash
map is modelled as an association list, whose `Default` value is empty. -/
structure VideoInfo where
  entries : List (VideoInfoTag × EntryValue)
  gps_info : Option GPSInfo

/-- The `Default` value of `VideoInfo`: empty entries, no GPS info. -/
def VideoInfo.default : VideoInfo :=
  { entries := [], gps_info := none }

/-- Translation of `parse_video_info` (`src/video.rs` lines 26-28): ignore
the reader entirely and return `Ok(VideoInfo::default())`. -/
def parse_video_info {ρ : Type} (_reader : ρ) : Except String VideoInfo :=
  .ok VideoInfo.default

/-- Decidable equality for `Except`, so closed facts about parser results
can be settled by `decide`. -/
instance exceptDecEq {ε α : Type} [DecidableEq ε] [DecidableEq α] :
    DecidableEq (Except ε α) := fun x y =>
  match x, y with
  | .ok a, .ok b =>
    match decEq a b with
    | isTrue h => isTrue (by rw [h])
    | isFalse h => isFalse (by intro hc; injection hc; contradiction)
  | .error a, .error b =>
    match decEq a b with
    | isTrue h => isTrue (by rw [h])
    | isFalse h => isFalse (by intro hc; injection hc; contradiction)
  | .ok _, .error _ => isFalse (by intro hc; exact absurd hc (by simp))
  | .error _, .ok _ => isFalse (by intro hc; exact absurd hc (by simp))

/-! Concrete fixtures. The sample MOV fixture of the embedded documentation
is realized as bytes in the modelled box encoding: a `keys` entry is a
4-byte size, the `mdta` namespace and the key text; an `ilst` item is a
4-byte size, wire type 1 (text) and the payload. -/

/-- Encode one `keys` entry. -/
def keysEntryBytes (key : String) : List Nat :=
  u32be (8 + (strBytes key).length) ++ strBytes "mdta" ++ strBytes key

/-- Encode one text `ilst` item. -/
def ilstItemBytes (v : String) : List Nat :=
  u32be (8 + (strBytes v).length) ++ u32be 1 ++ strBytes v

/-- The `meta` box of the sample MOV fixture: five Apple QuickTime keys
paired with the five documented text values. -/
def c1meta : List Nat := mkBox "meta"
  (mkBox "keys"
    (keysEntryBytes "com.apple.quicktime.make" ++
     keysEntryBytes "com.apple.quicktime.model" ++
     keysEntryBytes "com.apple.quicktime.software" ++
     keysEntryBytes "com.apple.quicktime.location.ISO6709" ++
     keysEntryBytes "com.apple.quicktime.creationdate") ++
   mkBox "ilst"
    (ilstItemBytes "Apple" ++
     ilstItemBytes "iPhone X" ++
     ilstItemBytes "12.1.2" ++
     ilstItemBytes "+27.1281+100.2508+000.000/" ++
     ilstItemBytes "2019-02-12T15:27:12+08:00"))

/-- The `mvhd` box of the sample MOV fixture: timescale 1000, duration 500
(500 ms). -/
def c1mvhd : List Nat := mkBox "mvhd"
  (u32be 0 ++ u32be 3061152000 ++ u32be 0 ++ u32be 1000 ++ u32be 500)

/-- The video track of the sample MOV fixture: width 720, height 1280. -/
def c1trak : List Nat := mkBox "trak" (mkBox "tkhd" (u32be 0 ++ u32be 720 ++ u32be 1280))

/-- The sample MOV fixture: an `ftyp` box followed by the `moov` box. -/
def c1file : List Nat :=
  mkBox "ftyp" (strBytes "qt  ") ++ mkBox "moov" (c1meta ++ c1mvhd ++ c1trak)

set_option maxRecDepth 100000 in
/-- C1: on the sample MOV fixture, `parse_metadata` returns `Ok` with
exactly the eight documented entries in order: make, model, software,
location, creation date (normalized to a structured timestamp with +08:00
offset), duration 500, width 720, height 1280. -/
theorem claim_c1 :
    parse_metadata c1file = .ok
      [("com.apple.quicktime.make", .Text "Apple"),
       ("com.apple.quicktime.model", .Text "iPhone X"),
       ("com.apple.quicktime.software", .Text "12.1.2"),
       ("com.apple.quicktime.location.ISO6709", .Text "+27.1281+100.2508+000.000/"),
       ("com.apple.quicktime.creationdate",
         .Time { year := 2019, month := 2, day := 12, hour := 15, minute := 27, second := 12,
                 tzNeg := false, tzHour := 8, tzMin := 0 }),
       ("duration", .U32 500),
       ("width", .U32 720),
       ("height", .U32 1280)] := by
  decide

/-- C9: `parse_video_info` returns `Ok` with an empty entries map and no
GPS info, for every reader of every type — the result never depends on the
reader and no error is ever returned. -/
theorem claim_c9 (ρ : Type) (reader : ρ) :
    parse_video_info reader = .ok { entries := [], gps_info := none } := rfl

/-- C9 witness: a concrete reader (here an arbitrary byte list) yields the
empty video info. -/
theorem claim_c9_witness :
    parse_video_info ([1, 2, 3] : List Nat) = .ok { entries := [], gps_info := none } :=
  claim_c9 (List Nat) [1, 2, 3]

/-- C2: full characterization of the `udta/©xyz` fallback pass: when an
entry with the location key already exists the pass changes nothing (the
box is not consulted); otherwise, when the box is found with a body longer
than 4 bytes, exactly one entry is appended whose value is the body after
the first 4 bytes read as characters, and in every other case (body not
longer than 4 bytes, box absent, or lookup error) the entries are
unchanged. -/
theorem claim_c2 (mb : List Nat) (entries : List (String × EntryValue)) :
    (entries.any (fun x => x.1 == LOCATION_KEY) = true → udtaFallback mb entries = entries)
    ∧ (entries.any (fun x => x.1 == LOCATION_KEY) = false →
        (∀ r b, find_box mb "udta/©xyz" = .ok (r, some b) →
          (4 < b.body_data.length →
            udtaFallback mb entries =
              entries ++ [(LOCATION_KEY, .Text (bytesToString (b.body_data.drop 4)))])
          ∧ (b.body_data.length ≤ 4 → udtaFallback mb entries = entries))
        ∧ (∀ r, find_box mb "udta/©xyz" = .ok (r, none) → udtaFallback mb entries = entries)
        ∧ (∀ e, find_box mb "udta/©xyz" = .error e → udtaFallback mb entries = entries)) := by
  constructor
  · intro hany
    simp [udtaFallback, hany]
  · intro hany
    refine ⟨fun r b hfb => ⟨fun hlt => ?_, fun hle => ?_⟩, fun r hfb => ?_, fun e hfb => ?_⟩
    · simp [udtaFallback, hany, hfb, Nat.not_le_of_lt hlt]
    · simp [udtaFallback, hany, hfb, hle]
    · simp [udtaFallback, hany, hfb]
    · simp [udtaFallback, hany, hfb]

/-- C2 witness: on a concrete moov body holding only `udta/©xyz` with a
9-byte location after the 4-byte prefix, and no location entry yet, the
fallback appends exactly the location entry. -/
theorem claim_c2_witness :
    udtaFallback (mkBox "udta" (mkBox "©xyz" ([0, 0, 0, 0] ++ strBytes "+1.5+2.5/"))) [] =
      [(LOCATION_KEY, .Text "+1.5+2.5/")] :=
  ((((claim_c2 (mkBox "udta" (mkBox "©xyz" ([0, 0, 0, 0] ++ strBytes "+1.5+2.5/"))) []).2
      (by decide)).1 []
      ⟨⟨"©xyz", 21, 8⟩, mkBox "©xyz" ([0, 0, 0, 0] ++ strBytes "+1.5+2.5/")⟩
      (by decide)).1 (by decide)).trans (by decide)

/-- Whether a driver-level result is `Ok` (used to state, in closed form,
that a run fails). -/
def resultIsOk : Except String (List (String × EntryValue)) → Bool
  | .ok _ => true
  | .error _ => false

/-- C10 counterexample: a moov body whose `meta` has no `keys`, whose
`udta/©xyz` body is exactly 4 bytes, and whose top level ends in 3 stray
bytes. The fallback is consulted (the keys/ilst pass yields no entries) and
the box is found with a 4-byte body, yet `parse_metadata` returns an error
(the later `mvhd` lookup fails on the stray bytes), refuting "still
returns Ok". -/
theorem claim_c10_cex :
    parse_moov_body (mkBox "meta" [] ++ mkBox "udta" (mkBox "©xyz" [9, 9, 9, 9]) ++ [0, 0, 0]) =
      .ok (mkBox "udta" (mkBox "©xyz" [9, 9, 9, 9]) ++ [0, 0, 0], none)
    ∧ find_box (mkBox "meta" [] ++ mkBox "udta" (mkBox "©xyz" [9, 9, 9, 9]) ++ [0, 0, 0])
        "udta/©xyz" = .ok ([0, 0, 0], some ⟨⟨"©xyz", 12, 8⟩, mkBox "©xyz" [9, 9, 9, 9]⟩)
    ∧ (BoxHolder.body_data ⟨⟨"©xyz", 12, 8⟩, mkBox "©xyz" [9, 9, 9, 9]⟩).length = 4
    ∧ resultIsOk (parse_metadata (mkBox "moov"
        (mkBox "meta" [] ++ mkBox "udta" (mkBox "©xyz" [9, 9, 9, 9]) ++ [0, 0, 0]))) = false := by
  decide

/-- C10 (amended): when the fallback is consulted (no location entry yet)
and the box is found with a body of 4 bytes or fewer, the fallback pass
appends nothing and raises no error; when the body is longer than 4 bytes
the appended text is exactly the in-range suffix past the 4-byte prefix
(its length is the body length minus 4). The overall `parse_metadata` call
may still fail in a later pass for unrelated reasons. -/
theorem claim_c10_thm (mb : List Nat) (entries : List (String × EntryValue))
    (r : List Nat) (b : BoxHolder)
    (hany : entries.any (fun x => x.1 == LOCATION_KEY) = false)
    (hfb : find_box mb "udta/©xyz" = .ok (r, some b)) :
    (b.body_data.length ≤ 4 → udtaFallback mb entries = entries)
    ∧ (4 < b.body_data.length →
        udtaFallback mb entries =
          entries ++ [(LOCATION_KEY, .Text (bytesToString (b.body_data.drop 4)))]
        ∧ (bytesToString (b.body_data.drop 4)).length = b.body_data.length - 4) := by
  constructor
  · intro hle
    simp [udtaFallback, hany, hfb, hle]
  · intro hlt
    refine ⟨by simp [udtaFallback, hany, hfb, Nat.not_le_of_lt hlt], ?_⟩
    simp [bytesToString, String.length, List.length_drop]

/-- C10 witness: with a 4-byte `©xyz` body the fallback appends nothing. -/
theorem claim_c10_witness :
    udtaFallback (mkBox "udta" (mkBox "©xyz" [1, 2, 3, 4])) [] = [] :=
  (claim_c10_thm (mkBox "udta" (mkBox "©xyz" [1, 2, 3, 4])) [] []
    ⟨⟨"©xyz", 12, 8⟩, mkBox "©xyz" [1, 2, 3, 4]⟩ (by decide) (by decide)).1 (by decide)

/-- C5: for entries containing a creation-date entry (first occurrence at
index `i`) whose value is text: when the text parses as strict ISO-8601 the
entry is replaced in place (same key, same position) by the structured
time; when parsing fails the list is returned exactly unchanged — the
normalization itself is a total function, so no error is raised either
way. -/
theorem claim_c5 (entries : List (String × EntryValue)) (i : Nat) (k s : String)
    (hidx : entries.findIdx? (fun x => x.1 == CREATIONDATE_KEY) = some i)
    (hval : entries.get? i = some (k, .Text s)) :
    (∀ t, parse_from_str s = some t →
      normalizeCreationdate entries = entries.set i (CREATIONDATE_KEY, .Time t))
    ∧ (parse_from_str s = none → normalizeCreationdate entries = entries) := by
  have hval2 : entries[i]? = some (k, EntryValue.Text s) := by
    simpa using hval
  constructor
  · intro t hp
    simp [normalizeCreationdate, hidx, hval2, hp]
  · intro hp
    simp [normalizeCreationdate, hidx, hval2, hp]

/-- C5 witness: a parseable creation-date text is replaced in place by the
structured time, and an unparseable one is left untouched. -/
theorem claim_c5_witness :
    normalizeCreationdate [(CREATIONDATE_KEY, .Text "2019-02-12T15:27:12+08:00")] =
      [(CREATIONDATE_KEY,
        .Time { year := 2019, month := 2, day := 12, hour := 15, minute := 27, second := 12,
                tzNeg := false, tzHour := 8, tzMin := 0 })]
    ∧ normalizeCreationdate [(CREATIONDATE_KEY, .Text "not a date")] =
        [(CREATIONDATE_KEY, .Text "not a date")] := by
  constructor
  · exact (((claim_c5 [(CREATIONDATE_KEY, .Text "2019-02-12T15:27:12+08:00")] 0
      CREATIONDATE_KEY "2019-02-12T15:27:12+08:00" (by decide) (by decide)).1
      { year := 2019, month := 2, day := 12, hour := 15, minute := 27, second := 12,
        tzNeg := false, tzHour := 8, tzMin := 0 } (by decide)).trans (by decide))
  · exact ((claim_c5 [(CREATIONDATE_KEY, .Text "not a date")] 0
      CREATIONDATE_KEY "not a date" (by decide) (by decide)).2 (by decide))

/-- C4: when `mvhd` is found and parses, the pass appends a duration entry;
it appends the movie header's creation time only when no creation-date
entry is present, and in the already-present case the result is exactly the
input entries followed by the duration entry (every previously gathered
entry, the creation date included, is left unchanged). -/
theorem claim_c4 (mb : List Nat) (entries : List (String × EntryValue))
    (r rm : List Nat) (b : BoxHolder) (m : MvhdBox)
    (hfb : find_box mb "mvhd" = .ok (r, some b))
    (hpb : MvhdBox.parse_box b.data = .ok (rm, m)) :
    (entries.any (fun x => x.1 == CREATIONDATE_KEY) = true →
      mvhdPass mb entries = .ok (entries ++ [("duration", .U32 m.duration_ms)]))
    ∧ (entries.any (fun x => x.1 == CREATIONDATE_KEY) = false →
      mvhdPass mb entries = .ok (entries ++ [("duration", .U32 m.duration_ms),
                                  (CREATIONDATE_KEY, .Time m.creation_time)])) := by
  constructor
  · intro hany
    have h2 := hany
    simp at h2
    simp [mvhdPass, hfb, hpb, h2]
  · intro hany
    have h2 := hany
    simp at h2
    simp [mvhdPass, hfb, hpb, h2]
    exact ⟨fun x hx => h2 _ _ hx rfl, by decide⟩

/-- C4 witness: on a concrete `mvhd` box (timescale 1000, duration 500,
creation time at the 1970 epoch), the pass appends only the duration when a
creation-date entry exists, and duration plus creation time when none
does. -/
theorem claim_c4_witness :
    mvhdPass (mkBox "mvhd" (u32be 0 ++ u32be 2082844800 ++ u32be 0 ++ u32be 1000 ++ u32be 500))
        [(CREATIONDATE_KEY, .Text "x")] =
      .ok [(CREATIONDATE_KEY, .Text "x"), ("duration", .U32 500)]
    ∧ mvhdPass (mkBox "mvhd" (u32be 0 ++ u32be 2082844800 ++ u32be 0 ++ u32be 1000 ++ u32be 500))
        [] =
      .ok [("duration", .U32 500),
           (CREATIONDATE_KEY,
             .Time { year := 1970, month := 1, day := 1, hour := 0, minute := 0, second := 0,
                     tzNeg := false, tzHour := 0, tzMin := 0 })] := by
  constructor
  · exact ((claim_c4
      (mkBox "mvhd" (u32be 0 ++ u32be 2082844800 ++ u32be 0 ++ u32be 1000 ++ u32be 500))
      [(CREATIONDATE_KEY, .Text "x")] [] []
      ⟨⟨"mvhd", 28, 8⟩, mkBox "mvhd" (u32be 0 ++ u32be 2082844800 ++ u32be 0 ++ u32be 1000 ++
        u32be 500)⟩
      ⟨2082844800, 1000, 500⟩ (by decide) (by decide)).1 (by decide)).trans (by decide)
  · exact ((claim_c4
      (mkBox "mvhd" (u32be 0 ++ u32be 2082844800 ++ u32be 0 ++ u32be 1000 ++ u32be 500))
      [] [] []
      ⟨⟨"mvhd", 28, 8⟩, mkBox "mvhd" (u32be 0 ++ u32be 2082844800 ++ u32be 0 ++ u32be 1000 ++
        u32be 500)⟩
      ⟨2082844800, 1000, 500⟩ (by decide) (by decide)).2 (by decide)).trans (by decide)

/-- C3: when `meta`, `keys` and `ilst` are all found and both leaf boxes
parse, `parse_moov_body` returns the positional zip of keys with values;
its length is the minimum of the two list lengths, so mismatched counts are
truncated to the shorter list. -/
theorem claim_c3 (input r rk ri rpk rpi : List Nat) (meta keysB ilstB : BoxHolder)
    (kb : KeysBox) (ib : IlstBox)
    (hmeta : find_box input "meta" = .ok (r, some meta))
    (hkeys : find_box meta.body_data "keys" = .ok (rk, some keysB))
    (hilst : find_box meta.body_data "ilst" = .ok (ri, some ilstB))
    (hkp : KeysBox.parse_box keysB.data = .ok (rpk, kb))
    (hip : IlstBox.parse_box ilstB.data = .ok (rpi, ib)) :
    parse_moov_body input =
      .ok (input, some (List.zip (kb.entries.map (fun k => k.key))
                                 (ib.items.map (fun v => v.value))))
    ∧ (List.zip (kb.entries.map (fun k => k.key)) (ib.items.map (fun v => v.value))).length =
        min kb.entries.length ib.items.length := by
  constructor
  · simp [parse_moov_body, hmeta, hkeys, hilst, hkp, hip]
  · simp [List.length_zip]

/-- C3 witness: two keys zipped with a single ilst item produce exactly one
entry — the extra key is dropped (truncation to the shorter list). -/
theorem claim_c3_witness :
    parse_moov_body (mkBox "meta" (mkBox "keys" (keysEntryBytes "a" ++ keysEntryBytes "b") ++
        mkBox "ilst" (ilstItemBytes "v"))) =
      .ok (mkBox "meta" (mkBox "keys" (keysEntryBytes "a" ++ keysEntryBytes "b") ++
        mkBox "ilst" (ilstItemBytes "v")), some [("a", .Text "v")])
    ∧ (1 = min 2 1) := by
  constructor
  · exact ((claim_c3
      (mkBox "meta" (mkBox "keys" (keysEntryBytes "a" ++ keysEntryBytes "b") ++
        mkBox "ilst" (ilstItemBytes "v")))
      [] (mkBox "ilst" (ilstItemBytes "v")) [] [] []
      ⟨⟨"meta", 51, 8⟩, mkBox "meta" (mkBox "keys" (keysEntryBytes "a" ++ keysEntryBytes "b") ++
        mkBox "ilst" (ilstItemBytes "v"))⟩
      ⟨⟨"keys", 26, 8⟩, mkBox "keys" (keysEntryBytes "a" ++ keysEntryBytes "b")⟩
      ⟨⟨"ilst", 17, 8⟩, mkBox "ilst" (ilstItemBytes "v")⟩
      ⟨[⟨"mdta", "a"⟩, ⟨"mdta", "b"⟩]⟩ ⟨[⟨.Text "v"⟩]⟩
      (by decide) (by decide) (by decide) (by decide) (by decide)).1).trans (by decide)
  · decide

/-- C8: when the traversal of `extract_moov_body_from_buf` reaches a
non-moov box whose declared body size exceeds the bytes remaining after its
header, the traversal stops with a pending skip of (declared body size −
body bytes still present); when the traversal from the start reaches that
point, the function returns `ClearAndSkip` of that count; and discarding
the bytes up to and including the current buffer and skipping that count
lands exactly at the next sibling (header size + body size past the box's
start). -/
theorem claim_c8 (input0 input : List Nat) (ts sk : Nat) (remain : List Nat) (h : BoxHeader)
    (hp : parseBoxHeader input = .ok (remain, h))
    (hmoov : h.box_type ≠ "moov")
    (hshort : remain.length < bodySize h) :
    travel_header extractPred input (ts, sk) = .ok (remain, h, (bodySize h - remain.length, sk))
    ∧ (travel_header extractPred input0 (0, 0) =
         .ok (remain, h, (bodySize h - remain.length, sk)) →
       extract_moov_body_from_buf input0 = .error (.ClearAndSkip (bodySize h - remain.length)))
    ∧ input.length + (bodySize h - remain.length) = h.header_size + bodySize h := by
  refine ⟨?_, ?_, ?_⟩
  · simp only [travel_header, travel_headerF, hp]
    simp [extractPred, hmoov, hshort]
  · intro hloop
    have hpos : 0 < bodySize h - remain.length := by omega
    unfold extract_moov_body_from_buf
    rw [hloop]
    simp [hpos]
  · have := (parseBoxHeader_ok hp).1
    omega

/-- C8 witness: an `mdat` box declaring 92 body bytes with only 3 present
stops the traversal and makes the function skip the 89 missing bytes. -/
theorem claim_c8_witness :
    extract_moov_body_from_buf ([0, 0, 0, 100] ++ strBytes "mdat" ++ [1, 2, 3]) =
      .error (.ClearAndSkip 89)
    ∧ ([0, 0, 0, 100] ++ strBytes "mdat" ++ [1, 2, 3]).length + 89 = 8 + 92 := by
  have H := claim_c8 ([0, 0, 0, 100] ++ strBytes "mdat" ++ [1, 2, 3])
    ([0, 0, 0, 100] ++ strBytes "mdat" ++ [1, 2, 3]) 0 0 [1, 2, 3] ⟨"mdat", 100, 8⟩
    (by decide) (by decide) (by decide)
  exact ⟨(H.2.1 H.1).trans (by decide), by decide⟩

/-- Whether an extraction result is the `Need` signal (used to state, in
closed form, that a result is not `Need`). -/
def isNeedResult : Except ParsingError (Nat × Nat) → Bool
  | .error (.Need _) => true
  | _ => false

/-- C7 counterexample: a non-moov (`mdat`) box whose declared body size
(92) exceeds the 3 remaining bytes makes `extract_moov_body_from_buf`
return `ClearAndSkip 89`, not a `Need` signal — refuting the claim for
arbitrary boxes (it holds only for the moov box itself). -/
theorem claim_c7_cex :
    extract_moov_body_from_buf ([0, 0, 0, 100] ++ strBytes "mdat" ++ [1, 2, 3]) =
      .error (.ClearAndSkip 89)
    ∧ isNeedResult
        (extract_moov_body_from_buf ([0, 0, 0, 100] ++ strBytes "mdat" ++ [1, 2, 3])) = false := by
  decide

/-- C7 (amended): when the traversal reaches the `moov` box and its
declared body size exceeds the bytes remaining, the traversal stops there,
and (when reached from the start) the function returns the recoverable
`Need` signal asking for the missing byte count — never a
malformed-structure `Failed`; a non-moov box in that situation instead
yields the (equally recoverable) `ClearAndSkip` signal. -/
theorem claim_c7_thm (input0 input : List Nat) (ts sk : Nat) (remain : List Nat) (h : BoxHeader)
    (hp : parseBoxHeader input = .ok (remain, h))
    (hmoov : h.box_type = "moov")
    (hshort : remain.length < bodySize h) :
    travel_header extractPred input (ts, sk) = .ok (remain, h, (ts, sk + h.header_size))
    ∧ (travel_header extractPred input0 (0, 0) = .ok (remain, h, (0, sk + h.header_size)) →
       extract_moov_body_from_buf input0 = .error (.Need (bodySize h - remain.length))) := by
  constructor
  · simp only [travel_header, travel_headerF, hp]
    simp [extractPred, hmoov]
  · intro hloop
    have hns : ¬ bodySize h ≤ remain.length := by omega
    unfold extract_moov_body_from_buf
    rw [hloop]
    simp [streamingTake, hns, convert_error]

/-- C7 witness: a `moov` box declaring 92 body bytes with only 3 present
yields `Need 89`. -/
theorem claim_c7_witness :
    extract_moov_body_from_buf ([0, 0, 0, 100] ++ strBytes "moov" ++ [1, 2, 3]) =
      .error (.Need 89) := by
  have H := claim_c7_thm ([0, 0, 0, 100] ++ strBytes "moov" ++ [1, 2, 3])
    ([0, 0, 0, 100] ++ strBytes "moov" ++ [1, 2, 3]) 0 0 [1, 2, 3] ⟨"moov", 100, 8⟩
    (by decide) (by decide) (by decide)
  exact (H.2 H.1).trans (by decide)

/-- C6 counterexample: a moov body whose `meta` box has no `keys` and whose
top level ends in 3 stray bytes: `parse_moov_body` duly returns `Ok` with
no entries, yet `parse_metadata` returns an error (the later `mvhd` lookup
fails on the stray bytes) — refuting the unconditional "returns Ok". -/
theorem claim_c6_cex :
    parse_moov_body (mkBox "meta" [] ++ [0, 0, 0]) = .ok ([0, 0, 0], none)
    ∧ resultIsOk (parse_metadata (mkBox "moov" (mkBox "meta" [] ++ [0, 0, 0]))) = false := by
  decide

/-- C6 (amended): a missing `meta` (with a cleanly traversable top level),
or a missing `keys` or `ilst` inside `meta`, makes `parse_moov_body` return
`Ok` with no entries rather than an error; and when `meta` is absent the
whole of `parse_metadata` goes on to the udta/mvhd/tkhd passes and returns
`Ok` with whatever those passes gather (the clean scan that established
meta's absence guarantees the mvhd lookup cannot fail). When `meta` is
present but `keys`/`ilst` are missing, a later pass may still fail on
malformed sibling boxes. -/
theorem claim_c6_thm (mb r : List Nat) :
    (find_box mb "meta" = .ok (r, none) →
      parse_moov_body mb = .ok (mb, none) ∧ ∃ es, parse_metadata_body mb = .ok es)
    ∧ (∀ meta rk, find_box mb "meta" = .ok (r, some meta) →
        find_box meta.body_data "keys" = .ok (rk, none) →
        parse_moov_body mb = .ok (r, none))
    ∧ (∀ meta rk ri keysB, find_box mb "meta" = .ok (r, some meta) →
        find_box meta.body_data "keys" = .ok (rk, some keysB) →
        find_box meta.body_data "ilst" = .ok (ri, none) →
        parse_moov_body mb = .ok (r, none)) := by
  have e_meta : find_box mb "meta" = findSibling "meta" mb := by
    have hsplit : splitPath "meta".toList [] = ["meta"] := by decide
    unfold find_box
    rw [hsplit]
    rfl
  have e_mvhd : find_box mb "mvhd" = findSibling "mvhd" mb := by
    have hsplit : splitPath "mvhd".toList [] = ["mvhd"] := by decide
    unfold find_box
    rw [hsplit]
    rfl
  refine ⟨?_, ?_, ?_⟩
  · intro hmeta
    have hpmb : parse_moov_body mb = .ok (mb, none) := by
      simp [parse_moov_body, hmeta]
    refine ⟨hpmb, ?_⟩
    have hms : findSiblingF (mb.length + 1) "meta" mb = .ok (r, none) := by
      rw [e_meta] at hmeta
      exact hmeta
    obtain ⟨out, hout⟩ := findSiblingF_ok_of_none (mb.length + 1) "meta" mb r hms "mvhd"
    obtain ⟨r2, ob⟩ := out
    have hmv : find_box mb "mvhd" = .ok (r2, ob) := by
      rw [e_mvhd]
      exact hout
    have hmp : ∃ es3, mvhdPass mb (normalizeCreationdate (udtaFallback mb [])) = .ok es3 := by
      cases ob with
      | none =>
        exact ⟨normalizeCreationdate (udtaFallback mb []), by simp [mvhdPass, hmv]⟩
      | some b =>
        cases hb : MvhdBox.parse_box b.data with
        | error e =>
          exact ⟨normalizeCreationdate (udtaFallback mb []), by simp [mvhdPass, hmv, hb]⟩
        | ok p =>
          obtain ⟨rm, m⟩ := p
          cases hc : ((normalizeCreationdate (udtaFallback mb []) ++
              [("duration", EntryValue.U32 m.duration_ms)]).any
                (fun x => x.1 == CREATIONDATE_KEY)) with
          | true =>
            exact ⟨normalizeCreationdate (udtaFallback mb []) ++
                [("duration", EntryValue.U32 m.duration_ms)],
              by simp only [mvhdPass, hmv, hb, hc, if_true]⟩
          | false =>
            exact ⟨normalizeCreationdate (udtaFallback mb []) ++
                [("duration", EntryValue.U32 m.duration_ms)] ++
                [(CREATIONDATE_KEY, EntryValue.Time m.creation_time)],
              by
                simp only [mvhdPass, hmv, hb, hc, List.append_assoc]
                rw [if_neg (by simp)]⟩
    obtain ⟨es3, hes3⟩ := hmp
    exact ⟨tkhdPass mb es3, by simp [parse_metadata_body, hpmb, hes3]⟩
  · intro meta rk hmeta hkeys
    simp [parse_moov_body, hmeta, hkeys]
  · intro meta rk ri keysB hmeta hkeys hilst
    simp [parse_moov_body, hmeta, hkeys, hilst]

/-- C6 witness: a moov body holding only a `free` box has no `meta`;
`parse_moov_body` returns `Ok` with no entries and the whole metadata body
pass returns `Ok`. -/
theorem claim_c6_witness :
    parse_moov_body (mkBox "free" []) = .ok (mkBox "free" [], none)
    ∧ ∃ es, parse_metadata_body (mkBox "free" []) = .ok es :=
  (claim_c6_thm (mkBox "free" []) []).1 (by decide)

end NomExif
